import Mathlib

/-!
# SwipeClean photo-detection core: a shallow embedding

This file embeds the duplicate/similarity detection pipeline of the
SwipeClean repository (`src/utils/photoDetection.js` together with the
image-hashing utilities `simpleHash`, `generateImageSignature`,
`extractFileName`) into Lean 4, and proves/refutes the specification
claims about it.

Modelling conventions:
* JS 32-bit signed integer wrapping (`x | 0`, `x & x`, `<<`) is modelled by
  `toInt32 : Int → Int`, mapping into `[-2^31, 2^31)` with the same residue
  mod `2^32`.
* JS `Number` fields (`width`, `height`, `size`, `creationTime`) are
  modelled as `Nat` (the spec's data model declares them as non-negative
  integers).  Decimal rendering of such a number by `Array.prototype.join`
  agrees with `toString : Nat → String`.
* The two floating-point comparisons of the source
  (`Math.abs(a-b) < Math.max(size*0.1, 10000)` and
  `size/pixels < 0.1`) are modelled exactly over the rationals by the
  integer comparisons `10*|a-b| < max size 100000` and
  `10*size < pixels`; double rounding can differ from the rational value
  only within half an ulp of the threshold, which no claim depends on.
* Strings are Lean `String`s; `charCodeAt` is modelled by `Char.toNat`
  (exact for the Basic Multilingual Plane).
-/

namespace SwipeClean

/-- JS `ToInt32`: wrap an integer into `[-2^31, 2^31)` keeping its residue
mod `2^32`.  Models `x & x` / `x << 5` coercions in `simpleHash`. -/
def toInt32 (x : Int) : Int := (x + 2147483648) % 4294967296 - 2147483648

/-- Digit characters used by JS `Number.prototype.toString(36)`. -/
def digit36 (n : Nat) : Char :=
  if n < 10 then Char.ofNat (48 + n) else Char.ofNat (87 + n)

/-- Fuel-driven base-36 digit expansion (fuel 48 is ample for any value
produced by a 32-bit hash; structural recursion keeps it kernel-reducible). -/
def toBase36Go : Nat → Nat → List Char → List Char
  | 0, _, acc => acc
  | fuel + 1, n, acc =>
    let acc' := digit36 (n % 36) :: acc
    if n < 36 then acc' else toBase36Go fuel (n / 36) acc'

/-- JS `n.toString(36)` for a non-negative integer `n`. -/
def toBase36 (n : Nat) : String := String.mk (toBase36Go 48 n [])

/-- `simpleHash` from `imageHashing.js`, as the `Int`-valued 32-bit state:
`hash = ((hash << 5) - hash) + str.charCodeAt(i); hash = hash & hash`. -/
def simpleHashInt (s : String) : Int :=
  s.data.foldl (fun h c => toInt32 (toInt32 (h * 32) - h + (c.toNat : Int))) 0

/-- `simpleHash` from `imageHashing.js`: `Math.abs(hash).toString(36)`. -/
def simpleHash (s : String) : String := toBase36 (simpleHashInt s).natAbs

/-- Characters matched by `\s` in a JS regex. -/
def isJsSpace (c : Char) : Bool :=
  c.toNat ∈ [9, 10, 11, 12, 13, 32, 160, 5760, 8192, 8193, 8194, 8195, 8196,
    8197, 8198, 8199, 8200, 8201, 8202, 8232, 8233, 8239, 8287, 12288, 65279]

/-- One attempted match of `/\s*\([0-9]+\)\s*/` at the head of the list:
returns the rest after the match, or `none` when the pattern does not match
here.  (The leading `\s*` cannot help by backtracking: `(` never matches a
whitespace character, so the maximal-munch reading is exact.) -/
def matchCounter (l : List Char) : Option (List Char) :=
  match l.dropWhile isJsSpace with
  | '(' :: r2 =>
    match r2.takeWhile Char.isDigit with
    | [] => none
    | _ :: _ =>
      match r2.dropWhile Char.isDigit with
      | ')' :: r4 => some (r4.dropWhile isJsSpace)
      | _ => none
  | _ => none

/-- Global replace `/\s*\([0-9]+\)\s*/g → ''`: scan left to right, removing
each match and continuing after it.  Fuel = list length (each step shortens
the list by at least one character). -/
def stripCountersGo : Nat → List Char → List Char
  | 0, l => l
  | _ + 1, [] => []
  | fuel + 1, c :: rest =>
    match matchCounter (c :: rest) with
    | some r => stripCountersGo fuel r
    | none => c :: stripCountersGo fuel rest

def stripCounters (l : List Char) : List Char := stripCountersGo l.length l

/-- Does the list start with `-copy` (letters case-insensitively)? -/
def isCopyAt : List Char → Bool
  | a :: b :: c :: d :: e :: _ =>
    a == '-' && b.toLower == 'c' && c.toLower == 'o' && d.toLower == 'p' &&
      e.toLower == 'y'
  | _ => false

/-- Non-global replace of the regex `-copy` (flag `i`) by the empty string:
drop the first occurrence only. -/
def stripCopy : List Char → List Char
  | [] => []
  | c :: rest =>
    if isCopyAt (c :: rest) then (c :: rest).drop 5 else c :: stripCopy rest

/-- Non-global replace of the anchored regex `-\d+$` by the empty string:
the regex matches iff the maximal trailing run of digits is non-empty and is
immediately preceded by a dash; the (unique) match removes that dash and
run. -/
def stripTrailDashDigits (l : List Char) : List Char :=
  let rev := l.reverse
  if (rev.takeWhile Char.isDigit).isEmpty then l
  else
    match rev.dropWhile Char.isDigit with
    | '-' :: r2 => r2.reverse
    | _ => l

/-- The filename normalisation chain used by `generateImageSignature` and
by the filename-based duplicate pass:
counter removal (global), `-copy` removal (first occurrence,
case-insensitive), trailing `-digits` removal, then `toLowerCase`
(modelled on ASCII letters). -/
def normalizeName (s : String) : String :=
  String.mk (((stripTrailDashDigits (stripCopy (stripCounters s.data)))).map
    Char.toLower)

/-- JS `uri.split('/')` on the character list: split at every slash,
keeping empty segments (the result is always non-empty). -/
def splitSlash : List Char → List (List Char)
  | [] => [[]]
  | c :: rest =>
    match splitSlash rest with
    | [] => [[]]
    | h :: t => if c = '/' then [] :: h :: t else (c :: h) :: t

/-- `extractFileName` from `imageHashing.js`:
`uri.split('/')` then last element, `''` when falsy. -/
def extractFileName (uri : String) : String :=
  String.mk ((splitSlash uri.data).getLastD [])

/-- `PhotoMetadata` (spec §3): the input record read by the core. -/
structure Photo where
  id : String
  uri : String
  width : Nat
  height : Nat
  size : Nat
  creationTime : Nat
deriving Repr, DecidableEq

/-- The canonical signature string of `generateImageSignature`:
`[width, height, Math.round(size/1000), Math.floor(creationTime/60000),
filenameBase].join('|')`.  `Math.round(x)` is `⌊x + 1/2⌋`, hence
`(size + 500) / 1000` on naturals; `Math.floor` is `Nat` division. -/
def signatureString (p : Photo) : String :=
  String.intercalate "|"
    [toString p.width, toString p.height, toString ((p.size + 500) / 1000),
     toString (p.creationTime / 60000),
     normalizeName (extractFileName p.uri)]

/-- `generateImageSignature` from `imageHashing.js`. -/
def generateImageSignature (p : Photo) : String :=
  simpleHash (signatureString p)

/-! ## The detection pipeline (`detectDuplicatesAndSimilar`) -/

/-- A photo with its computed signature (`photosWithSignatures` entry). -/
structure SPhoto where
  base : Photo
  signature : String
deriving Repr, DecidableEq

/-- Tag a photo with its signature.  The source wraps the call in
`try/catch` with a `width|height|size` fallback, but with a string `uri`
and numeric metadata `generateImageSignature` cannot throw (see also the
optional-field model for claim 8), so the catch branch is dead here. -/
def mkSPhoto (p : Photo) : SPhoto := ⟨p, generateImageSignature p⟩

/-- Category label constants (`PhotoCategory`). -/
def catDuplicate : String := "duplicate"
def catSimilar : String := "similar"
def catScreenshot : String := "screenshot"
def catLowQuality : String := "low_quality"
def catBurst : String := "burst"
def catOldUnused : String := "old_unused"

/-- Signature-map duplicates of the photo at index `i`: all *other* entries
with the same signature, in index order (the grouping map preserves index
order inside each signature class). -/
def sigDups (ws : List SPhoto) (i : Nat) (p : SPhoto) : List SPhoto :=
  (ws.enum.filter
    (fun jq => decide (jq.1 ≠ i ∧ jq.2.signature = p.signature))).map Prod.snd

/-- One step of the filename-based secondary duplicate pass.  The
`duplicateIds` set always holds exactly the ids of the photos collected so
far (both are pushed together), so the set is modelled by `dups.map id`. -/
def fnameStep (i : Nat) (base : String) (dups : List SPhoto)
    (jq : Nat × SPhoto) : List SPhoto :=
  if dups.length < 20 ∧ jq.1 ≠ i ∧
      jq.2.base.id ∉ dups.map (fun d => d.base.id) ∧
      normalizeName (extractFileName jq.2.base.uri) = base ∧
      0 < base.length
  then dups ++ [jq.2] else dups

/-- The duplicate list of the photo at index `i`: signature-map duplicates,
then — only when fewer than 10 were found — the filename-based pass over
the whole list, stopping at 20. -/
def dupsAt (ws : List SPhoto) (i : Nat) (p : SPhoto) : List SPhoto :=
  let d1 := sigDups ws i p
  if d1.length < 10 then
    ws.enum.foldl (fnameStep i (normalizeName (extractFileName p.base.uri))) d1
  else d1

/-- The per-neighbour similarity test (same dimensions; size within
`max(size*0.1, 10000)`; creation times within 60000 ms).  `10*|Δsize| <
max(size, 100000)` is the exact rational form of the float comparison
`Math.abs(Δsize) < Math.max(size*0.1, 10000)`. -/
def qualifiesSimilar (p q : Photo) : Bool :=
  q.width == p.width && q.height == p.height &&
  decide (10 * Nat.dist p.size q.size < max p.size 100000) &&
  decide (Nat.dist p.creationTime q.creationTime < 60000)

/-- The per-index guard of the windowed similarity scan: inside the window
`[i-25, min n (i+25))`, not the photo itself, not an already-collected
duplicate, and metadata-similar. -/
def simGuard (i : Nat) (p : SPhoto) (dupIds : List String) (start stop : Nat)
    (jq : Nat × SPhoto) : Bool :=
  decide (start ≤ jq.1) && decide (jq.1 < stop) && decide (jq.1 ≠ i) &&
  decide (jq.2.base.id ∉ dupIds) && qualifiesSimilar p.base jq.2.base

/-- One step of the windowed similarity scan (collect cap 5). -/
def simStep (i : Nat) (p : SPhoto) (dupIds : List String) (start stop : Nat)
    (sim : List SPhoto) (jq : Nat × SPhoto) : List SPhoto :=
  if (simGuard i p dupIds start stop jq && decide (sim.length < 5))
  then sim ++ [jq.2] else sim

/-- The similar-photo list of the photo at index `i` (the source iterates
`j` from `max(0, i-25)` to `min(n, i+25)` exclusive; here the window is a
guard over the indexed list, which visits the same `j` in the same order). -/
def similarAt (ws : List SPhoto) (i : Nat) (p : SPhoto)
    (dupIds : List String) : List SPhoto :=
  ws.enum.foldl (simStep i p dupIds (i - 25) (min ws.length (i + 25))) []

/-- Common screenshot resolutions from the source table. -/
def commonScreenshotSizes : List (Nat × Nat) :=
  [(1080, 1920), (1242, 2208), (750, 1334), (1440, 2560), (1080, 2340),
   (1170, 2532), (1179, 2556), (1284, 2778)]

/-- Screenshot rule: near-square, or within 50px of a common resolution. -/
def isScreenshot (p : Photo) : Bool :=
  decide (Nat.dist p.width p.height < 10) ||
  commonScreenshotSizes.any (fun s =>
    decide (Nat.dist p.width s.1 < 50) && decide (Nat.dist p.height s.2 < 50))

/-- Low-quality rule.  `10*size < pixels` is the exact rational form of
`size/pixels < 0.1`; the whole test is guarded by `pixels > 0`. -/
def isLowQuality (p : Photo) : Bool :=
  decide (0 < p.width * p.height) &&
  (decide (p.size < 50000) ||
    (decide (1000000 < p.width * p.height) &&
     decide (10 * p.size < p.width * p.height)))

/-- Old-unused rule: `(now - creationTime) / 86400000 > 365` over the
rationals, i.e. `now - creationTime > 365 * 86400000` over `Int`. -/
def isOldUnused (now : Nat) (p : Photo) : Bool :=
  decide ((365 : Int) * 86400000 < (now : Int) - (p.creationTime : Int))

/-- The category list pushed for one photo, in source order. -/
def categoriesRaw (now : Nat) (p : SPhoto) (dups sim : List SPhoto) :
    List String :=
  (if 0 < dups.length then [catDuplicate] else []) ++
  (if 0 < sim.length then
    (if 2 < sim.length then [catBurst] else [catSimilar]) else []) ++
  (if isScreenshot p.base then [catScreenshot] else []) ++
  (if isLowQuality p.base then [catLowQuality] else []) ++
  (if isOldUnused now p.base then [catOldUnused] else [])

/-- `[...new Set(categories)]`: dedup keeping first occurrences. -/
def jsDedupGo (seen : List String) : List String → List String
  | [] => []
  | a :: l => if a ∈ seen then jsDedupGo seen l else a :: jsDedupGo (a :: seen) l

def jsDedup (l : List String) : List String := jsDedupGo [] l

/-- `CategorizedPhoto`: one output record of the pipeline. -/
structure CatPhoto where
  base : Photo
  signature : String
  categories : List String
  isDuplicate : Bool
  duplicateIds : List String
  duplicateCount : Nat
  similarCount : Option Nat
deriving Repr, DecidableEq

/-- Categorisation of the photo at index `i` (the body of the second-pass
loop).  The similarity scan runs only when no duplicates were found. -/
def catAt (now : Nat) (ws : List SPhoto) (i : Nat) (p : SPhoto) : CatPhoto :=
  let dups := dupsAt ws i p
  let sim := if dups.length = 0 then
      similarAt ws i p (dups.map (fun d => d.base.id)) else []
  { base := p.base
    signature := p.signature
    categories := jsDedup (categoriesRaw now p dups sim)
    isDuplicate := decide (0 < dups.length)
    duplicateIds := dups.map (fun d => d.base.id)
    duplicateCount := dups.length
    similarCount := if 0 < sim.length then some sim.length else none }

/-- The pipeline on a non-null input list (`now` is `Date.now()`). -/
def detectGo (now : Nat) (ps : List Photo) : List CatPhoto :=
  let ws := ps.map mkSPhoto
  ws.enum.map (fun jq => catAt now ws jq.1 jq.2)

/-- `detectDuplicatesAndSimilar`: null or empty input returns `[]`. -/
def detectDuplicatesAndSimilar (now : Nat) (photos : Option (List Photo)) :
    List CatPhoto :=
  match photos with
  | none => []
  | some ps => if ps.length = 0 then [] else detectGo now ps

/-! ## The progress-callback trace

The values passed to `onProgress` depend only on the input length, so the
trace is modelled as a function of the input. -/

/-- The chunk ends visited by the phase-A loop (`batchSize = 50`). -/
def batchEnds (n : Nat) : List Nat :=
  (List.range ((n + 49) / 50)).map (fun k => min ((k + 1) * 50) n)

/-- `Math.round(e / n * 100)` for `0 < n`: `⌊100e/n + 1/2⌋`. -/
def roundPercent (n e : Nat) : Nat := (200 * e + n) / (2 * n)

/-- Progress values reported during phase A (after each signature batch):
`Math.round(batchEnd / total * 100)`. -/
def phaseATrace (n : Nat) : List Nat := (batchEnds n).map (roundPercent n)

/-- Progress values reported during phase C (categorisation): at indices
`i % 25 = 0` and at the last index, `Math.round(50 + (i+1)/n * 45)`. -/
def phaseCTrace (n : Nat) : List Nat :=
  ((List.range n).filter (fun i => decide (i % 25 = 0 ∨ i = n - 1))).map
    (fun i => 50 + (90 * (i + 1) + n) / (2 * n))

/-- The full sequence of values passed to the progress callback over one
run of `detectDuplicatesAndSimilar`: phase A per-batch reports, the fixed
50 checkpoint after grouping, phase C reports, and the final forced 100. -/
def progressTrace (photos : Option (List Photo)) : List Nat :=
  match photos with
  | none => []
  | some ps =>
    if ps.length = 0 then [] else
      phaseATrace ps.length ++ [50] ++ phaseCTrace ps.length ++ [100]

/-! ## Post-processing: `getDuplicateGroups` -/

/-- One step of the inner loop of `getDuplicateGroups`: look the id up in
the full photo list; push the photo and mark the id processed unless it
already was. -/
def dupGroupStep (cs : List CatPhoto) (st : List CatPhoto × List String)
    (dupId : String) : List CatPhoto × List String :=
  match cs.find? (fun p => p.base.id == dupId) with
  | some dp => if dupId ∈ st.2 then st else (st.1 ++ [dp], dupId :: st.2)
  | none => st

/-- One step of the outer loop of `getDuplicateGroups`: seed a group with
the photo, collect its unprocessed `duplicateIds`, and emit the group (and
mark the seed processed) only when it has more than one member. -/
def dupGroupsStep (cs : List CatPhoto)
    (st : List (List CatPhoto) × List String) (photo : CatPhoto) :
    List (List CatPhoto) × List String :=
  if photo.base.id ∈ st.2 then st
  else
    let inner := photo.duplicateIds.foldl (dupGroupStep cs) ([photo], st.2)
    if 1 < inner.1.length then (st.1 ++ [inner.1], photo.base.id :: inner.2)
    else (st.1, inner.2)

/-- `getDuplicateGroups` from `photoDetection.js`. -/
def getDuplicateGroups (cs : List CatPhoto) : List (List CatPhoto) :=
  ((cs.filter (fun p => p.isDuplicate)).foldl (dupGroupsStep cs) ([], [])).1

/-- The ids of a group's members. -/
def groupIds (g : List CatPhoto) : List String := g.map (fun p => p.base.id)

/-! ## Helper lemmas -/

theorem getElem?_enum (l : List α) (i : Nat) :
    l.enum[i]? = (l[i]?).map (fun a => (i, a)) := by
  rw [List.enum_eq_enumFrom, List.getElem?_enumFrom]
  simp

/-- The wrapped step of `simpleHash` is the 31-multiplier rolling step. -/
theorem simpleHash_step_eq (h : Int) (c : Int) :
    toInt32 (toInt32 (h * 32) - h + c) = toInt32 (31 * h + c) := by
  unfold toInt32
  omega

theorem mem_jsDedupGo {a : String} :
    ∀ (l seen : List String), a ∈ jsDedupGo seen l ↔ (a ∈ l ∧ a ∉ seen)
  | [], seen => by simp [jsDedupGo]
  | b :: l, seen => by
    unfold jsDedupGo
    by_cases hb : b ∈ seen
    · rw [if_pos hb, mem_jsDedupGo l seen]
      simp only [List.mem_cons]
      constructor
      · exact fun h => ⟨Or.inr h.1, h.2⟩
      · rintro ⟨rfl | h1, h2⟩
        · exact absurd hb h2
        · exact ⟨h1, h2⟩
    · rw [if_neg hb]
      simp only [List.mem_cons, mem_jsDedupGo l (b :: seen)]
      constructor
      · rintro (rfl | ⟨h1, h2⟩)
        · exact ⟨Or.inl rfl, hb⟩
        · exact ⟨Or.inr h1, fun hc => h2 (Or.inr hc)⟩
      · rintro ⟨rfl | h1, h2⟩
        · exact Or.inl rfl
        · by_cases hab : a = b
          · exact Or.inl hab
          · refine Or.inr ⟨h1, fun hc => ?_⟩
            rcases hc with hc | hc
            · exact hab hc
            · exact h2 hc

theorem mem_jsDedup {a : String} (l : List String) :
    a ∈ jsDedup l ↔ a ∈ l := by
  rw [jsDedup, mem_jsDedupGo]
  simp

lemma mem_ite_singleton {c x : String} {P : Prop} [Decidable P] :
    (c ∈ if P then [x] else []) ↔ (c = x ∧ P) := by
  split_ifs with h <;> simp [h]

lemma mem_simBlock {c : String} {sim : List SPhoto} :
    (c ∈ if 0 < sim.length then
      (if 2 < sim.length then [catBurst] else [catSimilar]) else []) ↔
    ((c = catBurst ∧ 2 < sim.length) ∨
     (c = catSimilar ∧ 0 < sim.length ∧ sim.length ≤ 2)) := by
  split_ifs with h1 h2
  · simp only [List.mem_singleton]
    constructor
    · intro hc
      exact Or.inl ⟨hc, h2⟩
    · rintro (⟨rfl, _⟩ | ⟨rfl, _, hle⟩)
      · rfl
      · omega
  · simp only [List.mem_singleton]
    constructor
    · intro hc
      exact Or.inr ⟨hc, h1, by omega⟩
    · rintro (⟨rfl, hgt⟩ | ⟨rfl, _, _⟩)
      · omega
      · rfl
  · constructor
    · intro hc
      exact absurd hc (List.not_mem_nil c)
    · rintro (⟨_, hgt⟩ | ⟨_, hpos, _⟩) <;> omega

/-- Full characterisation of the raw category list. -/
theorem mem_categoriesRaw {c : String} {now : Nat} {p : SPhoto}
    {dups sim : List SPhoto} :
    c ∈ categoriesRaw now p dups sim ↔
      ((c = catDuplicate ∧ 0 < dups.length) ∨
       (c = catBurst ∧ 2 < sim.length) ∨
       (c = catSimilar ∧ 0 < sim.length ∧ sim.length ≤ 2) ∨
       (c = catScreenshot ∧ isScreenshot p.base = true) ∨
       (c = catLowQuality ∧ isLowQuality p.base = true) ∨
       (c = catOldUnused ∧ isOldUnused now p.base = true)) := by
  unfold categoriesRaw
  simp only [List.mem_append, mem_ite_singleton, mem_simBlock]
  tauto

lemma detect_some_eq (now : Nat) (ps : List Photo) (h : ps.length ≠ 0) :
    detectDuplicatesAndSimilar now (some ps) = detectGo now ps := by
  simp [detectDuplicatesAndSimilar, h]

lemma detectGo_length (now : Nat) (ps : List Photo) :
    (detectGo now ps).length = ps.length := by
  simp [detectGo]

/-- The `i`-th output record is the categorisation of the `i`-th input. -/
lemma detectGo_get (now : Nat) (ps : List Photo) (i : Nat)
    (hi : i < (detectGo now ps).length) (hip : i < ps.length) :
    (detectGo now ps).get ⟨i, hi⟩ =
      catAt now (ps.map mkSPhoto) i (mkSPhoto (ps.get ⟨i, hip⟩)) := by
  simp [detectGo, List.get_eq_getElem, List.getElem_map,
    List.enum_eq_enumFrom, List.getElem_enumFrom]

/-! ## Claims -/

/-- A sample photo reused by several concrete evaluations. -/
def photoA : Photo := ⟨"a", "a.jpg", 100, 100, 1000, 0⟩

/-- Executable check that a list of naturals is non-decreasing. -/
def nonDecreasing : List Nat → Bool
  | [] => true
  | [_] => true
  | a :: b :: l => a ≤ b && nonDecreasing (b :: l)

theorem nonDecreasing_iff_chain' :
    ∀ l : List Nat, nonDecreasing l = true ↔ List.Chain' (fun x y => x ≤ y) l
  | [] => by simp [nonDecreasing]
  | [_] => by simp [nonDecreasing]
  | a :: b :: l => by
    simp [nonDecreasing, List.chain'_cons, nonDecreasing_iff_chain' (b :: l)]

/-- **C1** (code bug, evaluated at the failing input): on a single-photo
input the progress callback receives `[100, 50, 95, 100]` — the phase-A
formula `Math.round(batchEnd/total*100)` reaches 100 at the last batch,
after which the fixed 50 checkpoint is reported, so the sequence is *not*
monotonically non-decreasing (it does end at exactly 100). -/
theorem claim1_progress_not_monotone :
    progressTrace (some [photoA]) = [100, 50, 95, 100] ∧
    ¬ List.Chain' (fun x y => x ≤ y) (progressTrace (some [photoA])) ∧
    (progressTrace (some [photoA])).getLast? = some 100 := by
  refine ⟨by decide, ?_, by decide⟩
  rw [← nonDecreasing_iff_chain']
  decide

/-- **C2** (confirmed): null and empty inputs give an empty output; for
every input list the output has the same length, and the `i`-th output
record is derived from the `i`-th input record (it carries that record as
its base and that record's signature). -/
theorem claim2_cardinality_order :
    (∀ now, detectDuplicatesAndSimilar now none = []) ∧
    (∀ now, detectDuplicatesAndSimilar now (some []) = []) ∧
    (∀ now ps,
      (detectDuplicatesAndSimilar now (some ps)).length = ps.length) ∧
    (∀ (now : Nat) (ps : List Photo) (i : Nat),
      ((detectDuplicatesAndSimilar now (some ps))[i]?).map CatPhoto.base =
        ps[i]?) ∧
    (∀ (now : Nat) (ps : List Photo) (i : Nat),
      ((detectDuplicatesAndSimilar now (some ps))[i]?).map
          CatPhoto.signature = (ps[i]?).map generateImageSignature) := by
  refine ⟨fun _ => rfl, fun _ => rfl, ?_, ?_, ?_⟩
  · intro now ps
    by_cases h : ps.length = 0
    · simp [detectDuplicatesAndSimilar, h, List.length_eq_zero.mp h]
    · simp [detectDuplicatesAndSimilar, h, detectGo]
  · intro now ps i
    by_cases h : ps.length = 0
    · simp [detectDuplicatesAndSimilar, h, List.length_eq_zero.mp h]
    · simp only [detectDuplicatesAndSimilar, h, if_false, detectGo,
        getElem?_enum, List.getElem?_map, Option.map_map]
      cases ps[i]? <;> rfl
  · intro now ps i
    by_cases h : ps.length = 0
    · simp [detectDuplicatesAndSimilar, h, List.length_eq_zero.mp h]
    · simp only [detectDuplicatesAndSimilar, h, if_false, detectGo,
        getElem?_enum, List.getElem?_map, Option.map_map]
      cases ps[i]? <;> rfl

/-- The rolling hash exactly as the claim states it:
`h ← h*31 + charCode`, wrapped to 32 bits at each step. -/
def specRollingHash (s : String) : Int :=
  s.data.foldl (fun h c => toInt32 (31 * h + (c.toNat : Int))) 0

/-- **C3** (confirmed): `generateImageSignature` is the base-36 encoding of
the absolute value of the 32-bit rolling hash `h ← h*31 + charCode` of the
canonical `'|'`-joined string (the source's `((h << 5) - h)` step equals the
`31*h` step after 32-bit wrapping); consequently two records that agree on
width, height, `round(size/1000)`, `floor(creationTime/60000)` and the
normalised filename base get the same signature. -/
theorem claim3_signature_scheme :
    (∀ p : Photo, generateImageSignature p =
      toBase36 (specRollingHash (signatureString p)).natAbs) ∧
    (∀ p q : Photo, p.width = q.width → p.height = q.height →
      (p.size + 500) / 1000 = (q.size + 500) / 1000 →
      p.creationTime / 60000 = q.creationTime / 60000 →
      normalizeName (extractFileName p.uri) =
        normalizeName (extractFileName q.uri) →
      generateImageSignature p = generateImageSignature q) := by
  have hfold : ∀ s : String, simpleHashInt s = specRollingHash s := by
    intro s
    unfold simpleHashInt specRollingHash
    exact List.foldl_ext _ _ 0 (fun h c _ => simpleHash_step_eq h c.toNat)
  constructor
  · intro p
    unfold generateImageSignature simpleHash
    rw [hfold]
  · intro p q h1 h2 h3 h4 h5
    unfold generateImageSignature
    have : signatureString p = signatureString q := by
      unfold signatureString
      rw [h1, h2, h3, h4, h5]
    rw [this]

/-- Witness for C3 at the spec's own scenario: `IMG_001.jpg` versus
`IMG_001 (1).jpg` with identical metadata. -/
theorem claim3_witness :
    generateImageSignature ⟨"a", "IMG_001.jpg", 100, 100, 1000, 0⟩ =
    generateImageSignature ⟨"b", "IMG_001 (1).jpg", 100, 100, 1000, 0⟩ :=
  claim3_signature_scheme.2 _ _ rfl rfl rfl rfl (by decide)

/-- **C5** (counterexample): on a one-photo input the single phase-A report
is `Math.round(1/1*100) = 100`, which does not lie in the claimed 0–50%
band (nor is any `+5%` floor applied anywhere in the code). -/
theorem claim5_counterexample :
    phaseATrace [photoA].length = [100] ∧
    ¬ (∀ v ∈ phaseATrace [photoA].length, v ≤ 50) := by
  decide

/-- `Math.round(n/n*100) = 100`. -/
theorem roundPercent_self (n : Nat) (hn : 0 < n) : roundPercent n n = 100 := by
  unfold roundPercent
  rw [show 200 * n + n = 2 * n * 100 + n by ring,
    Nat.mul_add_div (by omega), Nat.div_eq_of_lt (by omega)]

theorem roundPercent_mono (n : Nat) {e e' : Nat} (h : e ≤ e') :
    roundPercent n e ≤ roundPercent n e' := by
  unfold roundPercent
  exact Nat.div_le_div_right (by omega)

/-- **C5** (amended): phase A processes the input in chunks of 50 and after
each chunk reports `Math.round(chunkEnd/total*100)`; these values are
non-decreasing and the *last* one is exactly 100 (not within a 0–50% band,
and with no `+5%` floor). -/
theorem claim5_amended (ps : List Photo) (h : ps ≠ []) :
    phaseATrace ps.length =
      (batchEnds ps.length).map (roundPercent ps.length) ∧
    (batchEnds ps.length).getLast? = some ps.length ∧
    (phaseATrace ps.length).getLast? = some 100 ∧
    List.Chain' (fun x y => x ≤ y) (phaseATrace ps.length) ∧
    (∀ v ∈ phaseATrace ps.length, v ≤ 100) := by
  set n := ps.length with hn
  have hn0 : 0 < n := List.length_pos.mpr h
  have hm : (n + 49) / 50 = ((n + 49) / 50 - 1) + 1 := by omega
  have hmin : min (((n + 49) / 50 - 1 + 1) * 50) n = n := by
    have : n ≤ ((n + 49) / 50) * 50 := by omega
    omega
  refine ⟨rfl, ?_, ?_, ?_, ?_⟩
  · unfold batchEnds
    rw [hm, List.range_succ, List.map_append]
    simp [hmin]
  · unfold phaseATrace batchEnds
    rw [hm, List.range_succ, List.map_append, List.map_append]
    simp only [List.map_cons, List.map_nil]
    rw [List.getLast?_concat, hmin, roundPercent_self n hn0]
  · unfold phaseATrace batchEnds
    rw [List.map_map]
    refine (List.chain'_map _).mpr ?_
    rw [hm, ← Nat.succ_eq_add_one, List.chain'_range_succ]
    intro k _
    exact roundPercent_mono n (min_le_min (by omega) le_rfl)
  · intro v hv
    unfold phaseATrace at hv
    obtain ⟨e, he, rfl⟩ := List.mem_map.mp hv
    unfold batchEnds at he
    obtain ⟨k, _, rfl⟩ := List.mem_map.mp he
    calc roundPercent n (min ((k + 1) * 50) n) ≤ roundPercent n n :=
          roundPercent_mono n (Nat.min_le_right _ _)
      _ = 100 := roundPercent_self n hn0

/-- Witness for C5 (amended) at a one-photo input. -/
theorem claim5_witness :
    (phaseATrace [photoA].length).getLast? = some 100 ∧
    List.Chain' (fun x y => x ≤ y) (phaseATrace [photoA].length) := by
  have h := claim5_amended [photoA] (by decide)
  exact ⟨h.2.2.1, h.2.2.2.1⟩

/-- The `i`-th output record of a run (a default record out of range). -/
def outAt (now : Nat) (photos : Option (List Photo)) (i : Nat) : CatPhoto :=
  ((detectDuplicatesAndSimilar now photos)[i]?).getD
    ⟨⟨"", "", 0, 0, 0, 0⟩, "", [], false, [], 0, none⟩

lemma outAt_eq (now : Nat) (ps : List Photo) (i : Nat)
    (hip : i < ps.length) :
    outAt now (some ps) i =
      catAt now (ps.map mkSPhoto) i (mkSPhoto (ps.get ⟨i, hip⟩)) := by
  have hne : ps.length ≠ 0 := by omega
  simp [outAt, detect_some_eq now ps hne, detectGo, getElem?_enum,
    List.getElem?_map, List.getElem?_eq_getElem hip, List.get_eq_getElem]

/-- **C7** (amended): a record's categories contain `low_quality` iff its
pixel count is *positive* and (`size < 50000`, or pixel count exceeds
1,000,000 and bytes-per-pixel is below 0.1).  The `pixels > 0` guard in the
source means the plain disjunction claimed by the spec fails for
zero-dimension photos. -/
theorem claim7_amended (now : Nat) (ps : List Photo) (i : Nat)
    (hip : i < ps.length) :
    catLowQuality ∈ (outAt now (some ps) i).categories ↔
      (0 < (outAt now (some ps) i).base.width *
          (outAt now (some ps) i).base.height ∧
       ((outAt now (some ps) i).base.size < 50000 ∨
        (1000000 < (outAt now (some ps) i).base.width *
            (outAt now (some ps) i).base.height ∧
         10 * (outAt now (some ps) i).base.size <
           (outAt now (some ps) i).base.width *
             (outAt now (some ps) i).base.height))) := by
  rw [outAt_eq now ps i hip]
  show catLowQuality ∈
      jsDedup (categoriesRaw now (mkSPhoto (ps.get ⟨i, hip⟩)) _ _) ↔ _
  rw [mem_jsDedup, mem_categoriesRaw]
  simp only [catLowQuality, catDuplicate, catBurst, catSimilar,
    catScreenshot, catOldUnused, isLowQuality, Bool.and_eq_true,
    Bool.or_eq_true, decide_eq_true_eq]
  simp [catAt, mkSPhoto]

/-- Witness for C7 (amended) at the spec's scenario
(width 2000, height 2000, size 300000 → `low_quality`). -/
theorem claim7_witness :
    catLowQuality ∈
      (outAt 0 (some [⟨"s", "s.jpg", 2000, 2000, 300000, 0⟩]) 0).categories :=
  (claim7_amended 0 [⟨"s", "s.jpg", 2000, 2000, 300000, 0⟩] 0
    (by decide)).mpr (by decide)

/-- **C7** (counterexample to the claim as stated): a 0×0 photo of 1000
bytes satisfies `size < 50000`, yet — because of the `pixels > 0` guard —
its categories do *not* contain `low_quality`. -/
theorem claim7_counterexample :
    (⟨"z", "z.jpg", 0, 0, 1000, 0⟩ : Photo).size < 50000 ∧
    catLowQuality ∉
      (outAt 0 (some [⟨"z", "z.jpg", 0, 0, 1000, 0⟩]) 0).categories := by
  decide

lemma mem_sigDups {ws : List SPhoto} {i j : Nat} {p q : SPhoto}
    (hj : ws.get? j = some q) (hne : j ≠ i)
    (hsig : q.signature = p.signature) : q ∈ sigDups ws i p := by
  unfold sigDups
  refine List.mem_map.mpr ⟨(j, q), ?_, rfl⟩
  refine List.mem_filter.mpr ⟨List.mem_enum_iff_getElem?.mpr ?_, ?_⟩
  · rw [← List.get?_eq_getElem?]
    exact hj
  · simp [hne, hsig]

lemma mem_foldl_fnameStep {x : SPhoto} {i : Nat} {b : String} :
    ∀ (l : List (Nat × SPhoto)) (acc : List SPhoto), x ∈ acc →
      x ∈ l.foldl (fnameStep i b) acc
  | [], _, hx => hx
  | jq :: l, acc, hx => by
    apply mem_foldl_fnameStep l
    unfold fnameStep
    split_ifs
    · exact List.mem_append_left _ hx
    · exact hx

/-- Signature-map duplicates survive the filename pass (it only appends). -/
lemma sigDups_subset_dupsAt {ws : List SPhoto} {i : Nat} {p : SPhoto}
    {x : SPhoto} (hx : x ∈ sigDups ws i p) : x ∈ dupsAt ws i p := by
  show x ∈ (if (sigDups ws i p).length < 10 then
    List.foldl (fnameStep i (normalizeName (extractFileName p.base.uri)))
      (sigDups ws i p) ws.enum else sigDups ws i p)
  split_ifs
  · exact mem_foldl_fnameStep _ _ hx
  · exact hx

lemma outAt_base (now : Nat) (ps : List Photo) (i : Nat)
    (hip : i < ps.length) :
    (outAt now (some ps) i).base = ps.get ⟨i, hip⟩ := by
  rw [outAt_eq now ps i hip]
  rfl

lemma outAt_signature (now : Nat) (ps : List Photo) (i : Nat)
    (hip : i < ps.length) :
    (outAt now (some ps) i).signature =
      generateImageSignature (ps.get ⟨i, hip⟩) := by
  rw [outAt_eq now ps i hip]
  rfl

lemma outAt_duplicateIds (now : Nat) (ps : List Photo) (i : Nat)
    (hip : i < ps.length) :
    (outAt now (some ps) i).duplicateIds =
      (dupsAt (ps.map mkSPhoto) i (mkSPhoto (ps.get ⟨i, hip⟩))).map
        (fun d => d.base.id) := by
  rw [outAt_eq now ps i hip]
  rfl

/-- If the photo at index `j` has the same signature as the photo at index
`i ≠ j`, its id is collected among index `i`'s duplicate ids. -/
lemma mem_duplicateIds_of_sig (now : Nat) (ps : List Photo) {i j : Nat}
    (hip : i < ps.length) (hjp : j < ps.length) (hne : j ≠ i)
    (hsig : generateImageSignature (ps.get ⟨j, hjp⟩) =
      generateImageSignature (ps.get ⟨i, hip⟩)) :
    (ps.get ⟨j, hjp⟩).id ∈ (outAt now (some ps) i).duplicateIds := by
  rw [outAt_duplicateIds now ps i hip]
  refine List.mem_map.mpr ⟨mkSPhoto (ps.get ⟨j, hjp⟩), ?_, rfl⟩
  refine sigDups_subset_dupsAt (mem_sigDups ?_ hne hsig)
  simp [List.get?_eq_getElem?, List.getElem?_map,
    List.getElem?_eq_getElem hjp, mkSPhoto, List.get_eq_getElem]

/-- **C4** (amended): duplicate-id symmetry holds between any two output
records *with equal signatures* (the signature-map pass is unconditional
and symmetric).  The filename-based secondary pass, guarded by the `< 10` /
`< 20` caps, can add asymmetric entries — see the counterexample. -/
theorem claim4_amended (now : Nat) (ps : List Photo) (i j : Nat)
    (hip : i < ps.length) (hjp : j < ps.length) (hne : i ≠ j)
    (hsig : (outAt now (some ps) i).signature =
      (outAt now (some ps) j).signature) :
    (outAt now (some ps) j).base.id ∈ (outAt now (some ps) i).duplicateIds ∧
    (outAt now (some ps) i).base.id ∈
      (outAt now (some ps) j).duplicateIds := by
  rw [outAt_signature now ps i hip, outAt_signature now ps j hjp] at hsig
  rw [outAt_base now ps i hip, outAt_base now ps j hjp]
  exact ⟨mem_duplicateIds_of_sig now ps hip hjp (fun h => hne h.symm)
      hsig.symm,
    mem_duplicateIds_of_sig now ps hjp hip hne hsig⟩

/-- Two photos with identical metadata but distinct ids. -/
def photoDupA : Photo := ⟨"a", "dup.jpg", 100, 100, 1000, 0⟩
def photoDupB : Photo := ⟨"b", "dup.jpg", 100, 100, 1000, 0⟩

set_option maxRecDepth 10000 in
/-- Witness for C4 (amended) on two identical-metadata photos. -/
theorem claim4_witness :
    (outAt 0 (some [photoDupA, photoDupB]) 1).base.id ∈
      (outAt 0 (some [photoDupA, photoDupB]) 0).duplicateIds ∧
    (outAt 0 (some [photoDupA, photoDupB]) 0).base.id ∈
      (outAt 0 (some [photoDupA, photoDupB]) 1).duplicateIds :=
  claim4_amended 0 [photoDupA, photoDupB] 0 1 (by decide) (by decide)
    (by decide) (by decide)

/-- Input defeating unrestricted duplicate symmetry: photo `a` (index 0)
has ten signature-identical clones, so its filename pass is skipped
(`duplicates.length < 10` fails); photo `b` (index 11) shares `a`'s
filename base but not its signature, so `b` collects `a` through the
filename pass while `a` never collects `b`. -/
def c4photos : List Photo :=
  ⟨"a", "a.jpg", 100, 100, 1000, 0⟩ ::
  ((List.range 10).map
    (fun k => (⟨"c" ++ toString k, "a.jpg", 100, 100, 1000, 0⟩ : Photo))) ++
  [⟨"b", "a.jpg", 200, 100, 1000, 0⟩]

set_option maxRecDepth 10000 in
/-- **C4** (counterexample to the claim as stated): in `c4photos`, photo
`a`'s id is in photo `b`'s `duplicateIds` but not conversely. -/
theorem claim4_counterexample :
    "a" ∈ (outAt 0 (some c4photos) 11).duplicateIds ∧
    "b" ∉ (outAt 0 (some c4photos) 0).duplicateIds := by
  decide

lemma enumFrom_map (f : α → β) :
    ∀ (n : Nat) (l : List α),
      (l.map f).enumFrom n = (l.enumFrom n).map (fun ka => (ka.1, f ka.2))
  | _, [] => rfl
  | n, a :: l => by
    simp only [List.map_cons, List.enumFrom_cons, enumFrom_map f (n + 1) l]

lemma enum_map (f : α → β) (l : List α) :
    (l.map f).enum = l.enum.map (fun ka => (ka.1, f ka.2)) :=
  enumFrom_map f 0 l

/-- The capped similarity fold collects `min 5` of the qualifying
neighbours. -/
lemma simStep_foldl_length (i : Nat) (p : SPhoto) (dupIds : List String)
    (start stop : Nat) :
    ∀ (l : List (Nat × SPhoto)) (acc : List SPhoto), acc.length ≤ 5 →
      (l.foldl (simStep i p dupIds start stop) acc).length =
        min 5 (acc.length +
          (l.filter (simGuard i p dupIds start stop)).length)
  | [], acc, h => by
    simp only [List.foldl_nil, List.filter_nil, List.length_nil,
      Nat.add_zero]
    omega
  | jq :: l, acc, h => by
    simp only [List.foldl_cons, List.filter_cons]
    by_cases hg : simGuard i p dupIds start stop jq = true
    · by_cases hlen : acc.length < 5
      · rw [show simStep i p dupIds start stop acc jq = acc ++ [jq.2] by
          simp [simStep, hg, hlen]]
        rw [simStep_foldl_length i p dupIds start stop l (acc ++ [jq.2])
          (by simp; omega)]
        simp [hg]
        omega
      · rw [show simStep i p dupIds start stop acc jq = acc by
          simp [simStep, hlen]]
        rw [simStep_foldl_length i p dupIds start stop l acc h]
        simp [hg]
        omega
    · rw [show simStep i p dupIds start stop acc jq = acc by
        simp [simStep, hg]]
      rw [simStep_foldl_length i p dupIds start stop l acc h]
      simp [hg]

lemma similarAt_length (ws : List SPhoto) (i : Nat) (p : SPhoto)
    (dupIds : List String) :
    (similarAt ws i p dupIds).length =
      min 5 ((ws.enum.filter
        (simGuard i p dupIds (i - 25) (min ws.length (i + 25)))).length) := by
  unfold similarAt
  rw [simStep_foldl_length i p dupIds (i - 25) (min ws.length (i + 25))
    ws.enum [] (by simp)]
  simp

/-- The number of indices the source's similarity window actually visits
and finds similar, i.e. `j ∈ [max(0,i-25), min(n,i+25))`, `j ≠ i`, same
dimensions, close size, close creation time. -/
def simWindowCount (ps : List Photo) (i : Nat) (p : Photo) : Nat :=
  (ps.enum.filter (fun jq =>
    decide (i - 25 ≤ jq.1) && decide (jq.1 < min ps.length (i + 25)) &&
    decide (jq.1 ≠ i) && qualifiesSimilar p jq.2)).length

/-- With no collected duplicates the similarity-scan filter over the
signature-tagged list counts exactly `simWindowCount`. -/
lemma simWindowCount_eq (ps : List Photo) (i : Nat) (p : Photo) :
    ((ps.map mkSPhoto).enum.filter
      (simGuard i (mkSPhoto p) [] (i - 25)
        (min (ps.map mkSPhoto).length (i + 25)))).length =
    simWindowCount ps i p := by
  unfold simWindowCount
  rw [enum_map, List.filter_map, List.length_map, List.length_map]
  congr 1
  apply List.filter_congr
  intro jq _
  simp [simGuard, mkSPhoto, Function.comp, Bool.and_assoc]

lemma outAt_duplicateCount (now : Nat) (ps : List Photo) (i : Nat)
    (hip : i < ps.length) :
    (outAt now (some ps) i).duplicateCount =
      (dupsAt (ps.map mkSPhoto) i (mkSPhoto (ps.get ⟨i, hip⟩))).length := by
  rw [outAt_eq now ps i hip]
  rfl

lemma outAt_categories (now : Nat) (ps : List Photo) (i : Nat)
    (hip : i < ps.length) :
    (outAt now (some ps) i).categories =
      jsDedup (categoriesRaw now (mkSPhoto (ps.get ⟨i, hip⟩))
        (dupsAt (ps.map mkSPhoto) i (mkSPhoto (ps.get ⟨i, hip⟩)))
        (if (dupsAt (ps.map mkSPhoto) i
              (mkSPhoto (ps.get ⟨i, hip⟩))).length = 0 then
          similarAt (ps.map mkSPhoto) i (mkSPhoto (ps.get ⟨i, hip⟩))
            ((dupsAt (ps.map mkSPhoto) i (mkSPhoto (ps.get ⟨i, hip⟩))).map
              (fun d => d.base.id))
        else [])) := by
  rw [outAt_eq now ps i hip]
  rfl

lemma mem_cats_burst (now : Nat) (p : SPhoto) (dups simv : List SPhoto) :
    catBurst ∈ jsDedup (categoriesRaw now p dups simv) ↔
      2 < simv.length := by
  rw [mem_jsDedup, mem_categoriesRaw]
  simp [catBurst, catDuplicate, catSimilar, catScreenshot, catLowQuality,
    catOldUnused]

lemma mem_cats_similar (now : Nat) (p : SPhoto) (dups simv : List SPhoto) :
    catSimilar ∈ jsDedup (categoriesRaw now p dups simv) ↔
      (0 < simv.length ∧ simv.length ≤ 2) := by
  rw [mem_jsDedup, mem_categoriesRaw]
  simp [catBurst, catDuplicate, catSimilar, catScreenshot, catLowQuality,
    catOldUnused]

/-- **C6** (amended): for an output record with zero detected duplicates,
let `cnt` be the number of qualifying neighbours in the *source's* window
`[max(0,i-25), min(n,i+25))` — i.e. up to 25 positions before but only 24
after the index (the claim's symmetric "±25 positions" is refuted by the
counterexample).  With the count capped at 5: `burst` is reported iff
`min 5 cnt > 2`, `similar` iff `1 ≤ min 5 cnt ≤ 2`, never both; a record
with at least one duplicate receives neither label. -/
theorem claim6_amended (now : Nat) (ps : List Photo) (i : Nat)
    (hip : i < ps.length) :
    ((outAt now (some ps) i).duplicateCount = 0 →
      ((catBurst ∈ (outAt now (some ps) i).categories ↔
          2 < min 5 (simWindowCount ps i (outAt now (some ps) i).base)) ∧
       (catSimilar ∈ (outAt now (some ps) i).categories ↔
          (1 ≤ min 5 (simWindowCount ps i (outAt now (some ps) i).base) ∧
           min 5 (simWindowCount ps i (outAt now (some ps) i).base) ≤ 2)) ∧
       ¬(catBurst ∈ (outAt now (some ps) i).categories ∧
          catSimilar ∈ (outAt now (some ps) i).categories))) ∧
    (0 < (outAt now (some ps) i).duplicateCount →
      (catBurst ∉ (outAt now (some ps) i).categories ∧
       catSimilar ∉ (outAt now (some ps) i).categories)) := by
  rw [outAt_base now ps i hip, outAt_duplicateCount now ps i hip,
    outAt_categories now ps i hip]
  set pm := mkSPhoto (ps.get ⟨i, hip⟩) with hpm
  set dups := dupsAt (ps.map mkSPhoto) i pm with hdups
  set simv := (if dups.length = 0 then
    similarAt (ps.map mkSPhoto) i pm (dups.map (fun d => d.base.id))
    else []) with hsimv
  constructor
  · intro h0
    have hdnil : dups = [] := List.length_eq_zero.mp h0
    have hsimlen : simv.length = min 5 (simWindowCount ps i
        (ps.get ⟨i, hip⟩)) := by
      rw [hsimv, hdnil]
      simp only [List.length_nil, List.map_nil]
      rw [if_pos trivial, hpm, similarAt_length, simWindowCount_eq]
    refine ⟨?_, ?_, ?_⟩
    · rw [mem_cats_burst, hsimlen]
    · rw [mem_cats_similar, hsimlen]
      omega
    · rw [mem_cats_burst, mem_cats_similar]
      omega
  · intro h0
    have hse : simv = [] := by
      rw [hsimv, if_neg (by omega)]
    constructor
    · rw [mem_cats_burst, hse]
      simp
    · rw [mem_cats_similar, hse]
      simp

/-- The neighbour count exactly as the claim words it: indices within ±25
of `i` *inclusive on both sides* (same dimensions, size within
`max(0.1*size, 10000)`, creation times within 60000 ms). -/
def claimNeighborCount (ps : List Photo) (i : Nat) (p : Photo) : Nat :=
  (ps.enum.filter (fun jq =>
    decide (i - 25 ≤ jq.1) && decide (jq.1 ≤ i + 25) &&
    decide (jq.1 ≠ i) && qualifiesSimilar p jq.2)).length

/-- 26 photos: index 0 and index 25 are metadata-similar; indices 1–24
differ in width.  The claim's ±25 window counts index 25 as a neighbour of
index 0, but the source's loop bound `i < min(n, index+25)` excludes it. -/
def c6photos : List Photo :=
  ⟨"s0", "p0.jpg", 100, 100, 500000, 0⟩ ::
  ((List.range 24).map
    (fun k => (⟨"t" ++ toString k, "q" ++ toString k ++ ".jpg",
      999, 100, 500000, 0⟩ : Photo))) ++
  [⟨"s25", "p25.jpg", 100, 100, 497000, 0⟩]

set_option maxRecDepth 10000 in
/-- **C6** (counterexample to the claim as stated): in `c6photos`, photo 0
has zero duplicates and exactly one qualifying neighbour within ±25
positions (photo 25), so the claim demands the `similar` label — but the
code never visits offset +25 and reports no `similar` category. -/
theorem claim6_counterexample :
    claimNeighborCount c6photos 0 (outAt 0 (some c6photos) 0).base = 1 ∧
    (outAt 0 (some c6photos) 0).duplicateCount = 0 ∧
    catSimilar ∉ (outAt 0 (some c6photos) 0).categories ∧
    catBurst ∉ (outAt 0 (some c6photos) 0).categories := by
  decide

set_option maxRecDepth 10000 in
/-- Witness for C6 (amended): two metadata-similar photos; the first gets
`similar` (capped count 1) and not `burst`. -/
theorem claim6_witness :
    catSimilar ∈ (outAt 0 (some [⟨"m1", "m1.jpg", 800, 600, 100000, 0⟩,
      ⟨"m2", "m2.jpg", 800, 600, 100000, 0⟩]) 0).categories ∧
    catBurst ∉ (outAt 0 (some [⟨"m1", "m1.jpg", 800, 600, 100000, 0⟩,
      ⟨"m2", "m2.jpg", 800, 600, 100000, 0⟩]) 0).categories := by
  have h := (claim6_amended 0 [⟨"m1", "m1.jpg", 800, 600, 100000, 0⟩,
    ⟨"m2", "m2.jpg", 800, 600, 100000, 0⟩] 0 (by decide)).1 (by decide)
  refine ⟨h.2.1.mpr (by decide), fun hb => absurd (h.1.mp hb) (by decide)⟩

/-! ## Claim 8: records with absent numeric fields

JS semantics of the source on absent fields: `photo.width` is `undefined`
and `Array.prototype.join` renders `undefined` as the empty string;
`Math.round(photo.size/1000)` and `Math.floor(photo.creationTime/60000)`
are `NaN`, rendered `"NaN"`.  Nothing is defaulted to zero and nothing
throws. -/

/-- A photo record whose numeric fields may be absent (`undefined`). -/
structure PhotoO where
  id : String
  uri : String
  width : Option Nat
  height : Option Nat
  size : Option Nat
  creationTime : Option Nat
deriving Repr, DecidableEq

/-- JS rendering of a raw field inside `[...].join('|')`: an absent field
is `undefined`, which `join` renders as the empty string. -/
def renderRaw : Option Nat → String
  | none => ""
  | some v => toString v

/-- JS rendering of `Math.round(size/1000)`: absent size gives `NaN`. -/
def renderRoundDiv1000 : Option Nat → String
  | none => "NaN"
  | some s => toString ((s + 500) / 1000)

/-- JS rendering of `Math.floor(creationTime/60000)`: absent time gives
`NaN`. -/
def renderFloorDiv60000 : Option Nat → String
  | none => "NaN"
  | some t => toString (t / 60000)

/-- `generateImageSignature`'s canonical string on an optional-field
record. -/
def signatureStringO (p : PhotoO) : String :=
  String.intercalate "|"
    [renderRaw p.width, renderRaw p.height, renderRoundDiv1000 p.size,
     renderFloorDiv60000 p.creationTime,
     normalizeName (extractFileName p.uri)]

/-- `generateImageSignature` on an optional-field record. -/
def generateImageSignatureO (p : PhotoO) : String :=
  simpleHash (signatureStringO p)

/-- Modelled from the claim's words ("the pipeline defaults that field to
zero before any arithmetic"): the record with every absent numeric field
replaced by zero. -/
def zeroDefaulted (p : PhotoO) : Photo :=
  ⟨p.id, p.uri, p.width.getD 0, p.height.getD 0, p.size.getD 0,
   p.creationTime.getD 0⟩

lemma toBase36Go_length :
    ∀ (fuel n : Nat) (acc : List Char),
      acc.length ≤ (toBase36Go fuel n acc).length
  | 0, _, _ => le_refl _
  | fuel + 1, n, acc => by
    unfold toBase36Go
    split_ifs
    · simp
    · calc acc.length ≤ (digit36 (n % 36) :: acc).length := by simp
        _ ≤ _ := toBase36Go_length fuel (n / 36) _

/-- Base-36 rendering is never the empty string. -/
lemma toBase36_pos (n : Nat) : 0 < (toBase36 n).length := by
  show 0 < (toBase36Go 48 n []).length
  unfold toBase36Go
  split_ifs
  · simp
  · show 0 < (toBase36Go 47 (n / 36) [digit36 (n % 36)]).length
    have h := toBase36Go_length 47 (n / 36) [digit36 (n % 36)]
    simp only [List.length_cons, List.length_nil] at h
    omega

/-- **C8** (amended): absent numeric fields are *not* defaulted to zero —
they flow through JS `undefined`/`NaN` semantics into the canonical string
(absent width/height render empty, absent size/creationTime render `NaN`).
The record still always receives a non-empty signature, and on records
whose fields are all present the optional-field semantics agrees with the
total model. -/
theorem claim8_amended :
    (∀ p : PhotoO, 0 < (generateImageSignatureO p).length) ∧
    (∀ (p : PhotoO) (w h s t : Nat), p.width = some w → p.height = some h →
      p.size = some s → p.creationTime = some t →
      generateImageSignatureO p =
        generateImageSignature ⟨p.id, p.uri, w, h, s, t⟩) := by
  constructor
  · intro p
    exact toBase36_pos _
  · intro p w h s t hw hh hs ht
    unfold generateImageSignatureO generateImageSignature
    congr 1
    unfold signatureStringO signatureString
    rw [hw, hh, hs, ht]
    rfl

/-- Witness for C8 (amended): an all-present record agrees with the total
model, and an all-absent record still gets a non-empty signature. -/
theorem claim8_witness :
    generateImageSignatureO ⟨"a", "a.jpg", some 100, some 100, some 1000,
        some 0⟩ =
      generateImageSignature ⟨"a", "a.jpg", 100, 100, 1000, 0⟩ ∧
    0 < (generateImageSignatureO
        ⟨"b", "b.jpg", none, none, none, none⟩).length :=
  ⟨claim8_amended.2 _ 100 100 1000 0 rfl rfl rfl rfl, claim8_amended.1 _⟩

set_option maxRecDepth 4000 in
/-- **C8** (counterexample to the claim as stated): a record missing only
`creationTime` does *not* hash like its zero-defaulted version — its
canonical string carries `"NaN"` where the claimed defaulting would put
`0`, so the produced signatures differ. -/
theorem claim8_counterexample :
    (⟨"a", "a.jpg", some 100, some 100, some 1000, none⟩ :
        PhotoO).creationTime = none ∧
    generateImageSignatureO
        ⟨"a", "a.jpg", some 100, some 100, some 1000, none⟩ ≠
      generateImageSignature
        (zeroDefaulted ⟨"a", "a.jpg", some 100, some 100, some 1000,
          none⟩) := by
  decide

/-! ## Claim 9: duplicate clusters are pairwise disjoint -/

/-- Invariant of the outer fold of `getDuplicateGroups`: every id of every
emitted group is marked processed, and emitted groups have pairwise
disjoint id sets. -/
def GroupsInv (st : List (List CatPhoto) × List String) : Prop :=
  (∀ g, g ∈ st.1 → ∀ s, s ∈ groupIds g → s ∈ st.2) ∧
  List.Pairwise (fun g h => ∀ s, s ∈ groupIds g → s ∉ groupIds h) st.1

/-- The inner fold only grows the processed set, and every id it adds to
the group either was already there or is newly processed. -/
lemma dupGroupStep_foldl (cs : List CatPhoto) :
    ∀ (ids : List String) (g : List CatPhoto) (pr : List String),
      (∀ s, s ∈ pr → s ∈ (ids.foldl (dupGroupStep cs) (g, pr)).2) ∧
      (∀ s, s ∈ groupIds (ids.foldl (dupGroupStep cs) (g, pr)).1 →
        s ∈ groupIds g ∨
          (s ∈ (ids.foldl (dupGroupStep cs) (g, pr)).2 ∧ s ∉ pr))
  | [], g, pr => by
    refine ⟨fun s hs => hs, fun s hs => Or.inl hs⟩
  | dupId :: ids, g, pr => by
    rw [List.foldl_cons]
    rcases hfind : cs.find? (fun p => p.base.id == dupId) with _ | dp
    · rw [show dupGroupStep cs (g, pr) dupId = (g, pr) by
        simp [dupGroupStep, hfind]]
      exact dupGroupStep_foldl cs ids g pr
    · by_cases hmem : dupId ∈ pr
      · rw [show dupGroupStep cs (g, pr) dupId = (g, pr) by
          simp [dupGroupStep, hfind, hmem]]
        exact dupGroupStep_foldl cs ids g pr
      · rw [show dupGroupStep cs (g, pr) dupId =
            (g ++ [dp], dupId :: pr) by simp [dupGroupStep, hfind, hmem]]
        obtain ⟨ih1, ih2⟩ :=
          dupGroupStep_foldl cs ids (g ++ [dp]) (dupId :: pr)
        have hdp : dp.base.id = dupId := by
          have := List.find?_some hfind
          simpa using this
        constructor
        · intro s hs
          exact ih1 s (List.mem_cons_of_mem _ hs)
        · intro s hs
          rcases ih2 s hs with h1 | ⟨h2a, h2b⟩
          · rw [show groupIds (g ++ [dp]) = groupIds g ++ [dp.base.id] by
              simp [groupIds]] at h1
            rcases List.mem_append.mp h1 with h1a | h1b
            · exact Or.inl h1a
            · have hs_eq : s = dupId := by
                rw [List.mem_singleton.mp h1b, hdp]
              subst hs_eq
              exact Or.inr ⟨ih1 s (List.mem_cons_self _ _), hmem⟩
          · exact Or.inr ⟨h2a, fun hc => h2b (List.mem_cons_of_mem _ hc)⟩

/-- One outer step preserves the invariant. -/
lemma dupGroupsStep_inv (cs : List CatPhoto) (photo : CatPhoto)
    (st : List (List CatPhoto) × List String) (h : GroupsInv st) :
    GroupsInv (dupGroupsStep cs st photo) := by
  unfold dupGroupsStep
  by_cases hid : photo.base.id ∈ st.2
  · rw [if_pos hid]
    exact h
  · rw [if_neg hid]
    show GroupsInv (if 1 <
      (photo.duplicateIds.foldl (dupGroupStep cs) ([photo], st.2)).1.length
      then _ else _)
    obtain ⟨inn1, inn2⟩ :=
      dupGroupStep_foldl cs photo.duplicateIds [photo] st.2
    split_ifs with hlen
    · constructor
      · intro g hg s hs
        rcases List.mem_append.mp hg with hg1 | hg2
        · exact List.mem_cons_of_mem _ (inn1 s (h.1 g hg1 s hs))
        · have hg2' : g =
              (photo.duplicateIds.foldl (dupGroupStep cs)
                ([photo], st.2)).1 := by simpa using hg2
          subst hg2'
          rcases inn2 s hs with h1 | ⟨h2a, _⟩
          · have : s = photo.base.id := by simpa [groupIds] using h1
            subst this
            exact List.mem_cons_self _ _
          · exact List.mem_cons_of_mem _ h2a
      · rw [List.pairwise_append]
        refine ⟨h.2, List.pairwise_singleton _ _, ?_⟩
        intro g hg g' hg' s hsg hsg'
        have hg'' : g' =
            (photo.duplicateIds.foldl (dupGroupStep cs)
              ([photo], st.2)).1 := by simpa using hg'
        subst hg''
        have hs_st : s ∈ st.2 := h.1 g hg s hsg
        rcases inn2 s hsg' with h1 | ⟨_, h2b⟩
        · have : s = photo.base.id := by simpa [groupIds] using h1
          subst this
          exact hid hs_st
        · exact h2b hs_st
    · constructor
      · intro g hg s hs
        exact inn1 s (h.1 g hg s hs)
      · exact h.2

lemma foldl_groups_inv (cs : List CatPhoto) :
    ∀ (l : List CatPhoto) (st : List (List CatPhoto) × List String),
      GroupsInv st → GroupsInv (l.foldl (dupGroupsStep cs) st)
  | [], _, h => h
  | photo :: l, st, h => by
    rw [List.foldl_cons]
    exact foldl_groups_inv cs l _ (dupGroupsStep_inv cs photo st h)

/-- **C9** (confirmed): in the list returned by `getDuplicateGroups`, the
groups have pairwise disjoint id sets — no photo id is a member of two
distinct returned clusters. -/
theorem claim9_groups_disjoint (cs : List CatPhoto) :
    List.Pairwise (fun g h => ∀ s, s ∈ groupIds g → s ∉ groupIds h)
      (getDuplicateGroups cs) :=
  (foldl_groups_inv cs (cs.filter (fun p => p.isDuplicate)) ([], [])
    ⟨fun g hg => absurd hg (List.not_mem_nil g), List.Pairwise.nil⟩).2

/-! ## Claim 10: a heap-level model of the run

`detectDuplicatesAndSimilar` works on JS object references.  To settle the
frame claim (it never mutates its input records, and its outputs are fresh
objects) the run is re-traced at the level of an object store: addresses
are indices into a store list, the spread `{...photo, signature}` is a
read followed by an allocation, `photo.duplicateCount = …` is a store
write to the *copy's* address, and every output `{...photo, …}` is a fresh
allocation.  The computed values reuse the pure model; only the pattern of
reads, writes and allocations matters for the claim. -/

/-- A JS photo object: the metadata fields plus the optional fields the
pipeline may attach. -/
structure HObj where
  photo : Photo
  signature : Option String := none
  duplicateIds : Option (List String) := none
  duplicateCount : Option Nat := none
  similarCount : Option Nat := none
  categories : Option (List String) := none
  isDuplicate : Option Bool := none
deriving Repr, DecidableEq

instance : Inhabited HObj :=
  ⟨⟨⟨"", "", 0, 0, 0, 0⟩, none, none, none, none, none, none⟩⟩

/-- One phase-A step over the store: read the object at `a` and allocate
the signature-tagged copy (`photosWithSignatures.push({...photo,
signature})`), recording the fresh address. -/
def heapSigStep (st : List HObj × List Nat) (a : Nat) :
    List HObj × List Nat :=
  (st.1 ++ [{ st.1.getD a default with
    signature := some (generateImageSignature (st.1.getD a default).photo) }],
   st.2 ++ [st.1.length])

/-- Phase A over the store. -/
def heapPhaseA (σ : List HObj) (addrs : List Nat) :
    List HObj × List Nat :=
  addrs.foldl heapSigStep (σ, [])

/-- The `photosWithSignatures` view read back from the store. -/
def heapWs (σ : List HObj) (copies : List Nat) : List SPhoto :=
  copies.map (fun c =>
    ⟨(σ.getD c default).photo, ((σ.getD c default).signature).getD ""⟩)

def heapPhotoAt (σ : List HObj) (copies : List Nat) (i : Nat) : SPhoto :=
  (heapWs σ copies).getD i ⟨⟨"", "", 0, 0, 0, 0⟩, ""⟩

def heapDupsAt (σ : List HObj) (copies : List Nat) (i : Nat) :
    List SPhoto :=
  dupsAt (heapWs σ copies) i (heapPhotoAt σ copies i)

def heapSimAt (σ : List HObj) (copies : List Nat) (i : Nat) :
    List SPhoto :=
  if (heapDupsAt σ copies i).length = 0 then
    similarAt (heapWs σ copies) i (heapPhotoAt σ copies i)
      ((heapDupsAt σ copies i).map (fun d => d.base.id))
  else []

/-- The conditional write `photo.duplicateCount = …; photo.duplicateIds =
…` on the copy's address. -/
def heapWrite1 (σ : List HObj) (ca : Nat) (dups : List SPhoto) :
    List HObj :=
  if 0 < dups.length then
    σ.set ca { σ.getD ca default with
      duplicateCount := some dups.length,
      duplicateIds := some (dups.map (fun d => d.base.id)) }
  else σ

/-- The conditional write `photo.similarCount = …` on the copy's
address. -/
def heapWrite2 (σ : List HObj) (ca : Nat) (sim : List SPhoto) :
    List HObj :=
  if 0 < sim.length then
    σ.set ca { σ.getD ca default with similarCount := some sim.length }
  else σ

/-- The store after both conditional writes of one categorisation step. -/
def heapStore2 (σ : List HObj) (copies : List Nat) (ica : Nat × Nat) :
    List HObj :=
  heapWrite2 (heapWrite1 σ ica.2 (heapDupsAt σ copies ica.1)) ica.2
    (heapSimAt σ copies ica.1)

/-- The freshly allocated output object (`categorized.push({...photo,
categories, isDuplicate, duplicateIds, duplicateCount})`), read from the
mutated copy. -/
def heapOut (now : Nat) (σ : List HObj) (copies : List Nat)
    (ica : Nat × Nat) : HObj :=
  { (heapStore2 σ copies ica).getD ica.2 default with
    categories := some (jsDedup (categoriesRaw now
      (heapPhotoAt σ copies ica.1) (heapDupsAt σ copies ica.1)
      (heapSimAt σ copies ica.1))),
    isDuplicate := some (decide (0 < (heapDupsAt σ copies ica.1).length)),
    duplicateIds := some ((heapDupsAt σ copies ica.1).map
      (fun d => d.base.id)),
    duplicateCount := some (heapDupsAt σ copies ica.1).length }

/-- One categorisation step over the store for the copy at address
`ica.2` (index `ica.1`): the conditional field writes, then the output
allocation. -/
def heapCatStep (now : Nat) (copies : List Nat)
    (st : List HObj × List Nat) (ica : Nat × Nat) : List HObj × List Nat :=
  (heapStore2 st.1 copies ica ++ [heapOut now st.1 copies ica],
   st.2 ++ [(heapStore2 st.1 copies ica).length])

/-- Phase C over the store: categorise each copy in order. -/
def heapPhaseC (now : Nat) (σ : List HObj) (copies : List Nat) :
    List HObj × List Nat :=
  copies.enum.foldl (heapCatStep now copies) (σ, [])

/-- The whole run over the store: returns the final store and the
addresses of the freshly allocated output records. -/
def detectHeap (now : Nat) (σ : List HObj) (addrs : List Nat) :
    List HObj × List Nat :=
  if addrs.length = 0 then (σ, [])
  else heapPhaseC now (heapPhaseA σ addrs).1 (heapPhaseA σ addrs).2

lemma heapPhaseA_go (B : Nat) :
    ∀ (addrs : List Nat) (σ : List HObj) (acc : List Nat),
      B ≤ σ.length →
      (B ≤ (addrs.foldl heapSigStep (σ, acc)).1.length) ∧
      (∀ i, i < B → ((addrs.foldl heapSigStep (σ, acc)).1)[i]? = σ[i]?) ∧
      (∀ c ∈ (addrs.foldl heapSigStep (σ, acc)).2, c ∈ acc ∨ B ≤ c)
  | [], σ, acc, hB => ⟨hB, fun _ _ => rfl, fun c hc => Or.inl hc⟩
  | a :: addrs, σ, acc, hB => by
    rw [List.foldl_cons]
    rw [show heapSigStep (σ, acc) a =
      (σ ++ [{ σ.getD a default with
        signature := some (generateImageSignature
          (σ.getD a default).photo) }], acc ++ [σ.length]) from rfl]
    obtain ⟨ih1, ih2, ih3⟩ := heapPhaseA_go B addrs
      (σ ++ [{ σ.getD a default with
        signature := some (generateImageSignature
          (σ.getD a default).photo) }])
      (acc ++ [σ.length])
      (by simp; omega)
    refine ⟨ih1, ?_, ?_⟩
    · intro i hi
      rw [ih2 i hi, List.getElem?_append_left (by omega)]
    · intro c hc
      rcases ih3 c hc with hc1 | hc2
      · rcases List.mem_append.mp hc1 with hc1a | hc1b
        · exact Or.inl hc1a
        · right
          rw [List.mem_singleton.mp hc1b]
          omega
      · exact Or.inr hc2

lemma heapStore2_length (σ : List HObj) (copies : List Nat)
    (ica : Nat × Nat) : (heapStore2 σ copies ica).length = σ.length := by
  unfold heapStore2 heapWrite2 heapWrite1
  split_ifs <;> simp

lemma heapStore2_getElem (σ : List HObj) (copies : List Nat)
    (ica : Nat × Nat) {j : Nat} (hj : ica.2 ≠ j) :
    (heapStore2 σ copies ica)[j]? = σ[j]? := by
  unfold heapStore2 heapWrite2 heapWrite1
  split_ifs <;> simp [List.getElem?_set_ne hj]

lemma heapCatStep_frame (now : Nat) (copies : List Nat) (B : Nat)
    (ica : Nat × Nat) (hca : B ≤ ica.2) (σ : List HObj) (outs : List Nat)
    (hB : B ≤ σ.length) :
    (B ≤ (heapCatStep now copies (σ, outs) ica).1.length) ∧
    (∀ j, j < B → ((heapCatStep now copies (σ, outs) ica).1)[j]? = σ[j]?) ∧
    (∀ o ∈ (heapCatStep now copies (σ, outs) ica).2,
      o ∈ outs ∨ B ≤ o) := by
  refine ⟨?_, ?_, ?_⟩
  · show B ≤ (heapStore2 σ copies ica ++ [heapOut now σ copies ica]).length
    rw [List.length_append, heapStore2_length]
    simp
    omega
  · intro j hj
    show (heapStore2 σ copies ica ++ [heapOut now σ copies ica])[j]? = σ[j]?
    rw [List.getElem?_append_left (by rw [heapStore2_length]; omega),
      heapStore2_getElem σ copies ica (by omega)]
  · intro o ho
    rcases List.mem_append.mp ho with ho1 | ho2
    · exact Or.inl ho1
    · right
      have ho3 : o = (heapStore2 σ copies ica).length :=
        List.mem_singleton.mp ho2
      rw [ho3, heapStore2_length]
      omega

lemma heapPhaseC_go (now : Nat) (copies : List Nat) (B : Nat) :
    ∀ (l : List (Nat × Nat)), (∀ x ∈ l, B ≤ x.2) →
      ∀ (σ : List HObj) (outs : List Nat), B ≤ σ.length →
      (B ≤ (l.foldl (heapCatStep now copies) (σ, outs)).1.length) ∧
      (∀ j, j < B →
        ((l.foldl (heapCatStep now copies) (σ, outs)).1)[j]? = σ[j]?) ∧
      (∀ o ∈ (l.foldl (heapCatStep now copies) (σ, outs)).2,
        o ∈ outs ∨ B ≤ o)
  | [], _, σ, outs, hB => ⟨hB, fun _ _ => rfl, fun o ho => Or.inl ho⟩
  | ica :: l, hl, σ, outs, hB => by
    rw [List.foldl_cons]
    obtain ⟨st1, st2, st3⟩ := heapCatStep_frame now copies B ica
      (hl ica (List.mem_cons_self _ _)) σ outs hB
    obtain ⟨ih1, ih2, ih3⟩ := heapPhaseC_go now copies B l
      (fun x hx => hl x (List.mem_cons_of_mem _ hx))
      (heapCatStep now copies (σ, outs) ica).1
      (heapCatStep now copies (σ, outs) ica).2 st1
    refine ⟨ih1, ?_, ?_⟩
    · intro j hj
      rw [ih2 j hj, st2 j hj]
    · intro o ho
      rcases ih3 o ho with ho1 | ho2
      · exact st3 o ho1
      · exact Or.inr ho2

/-- **C10** (confirmed at the heap level): over one run, every address
below the original store bound keeps exactly its original object — the
input array and every field of every input record are unchanged — and
every output record lives at a freshly allocated address, never aliasing
an input record. -/
theorem claim10_no_input_mutation (now : Nat) (σ : List HObj)
    (addrs : List Nat) :
    (∀ i, i < σ.length → ((detectHeap now σ addrs).1)[i]? = σ[i]?) ∧
    (∀ o, o ∈ (detectHeap now σ addrs).2 → σ.length ≤ o) ∧
    (∀ o, o ∈ (detectHeap now σ addrs).2 → ∀ a, a ∈ addrs →
      a < σ.length → o ≠ a) := by
  unfold detectHeap
  split_ifs with hnil
  · exact ⟨fun _ _ => rfl, fun o ho => absurd ho (List.not_mem_nil o),
      fun o ho => absurd ho (List.not_mem_nil o)⟩
  · obtain ⟨a1, a2, a3⟩ := heapPhaseA_go σ.length addrs σ [] le_rfl
    have hcop : ∀ x ∈ (heapPhaseA σ addrs).2.enum, σ.length ≤ x.2 := by
      intro x hx
      have hx2 : x.2 ∈ (heapPhaseA σ addrs).2 := by
        rw [show (heapPhaseA σ addrs).2 =
          ((heapPhaseA σ addrs).2.enum).map Prod.snd from
          (List.enumFrom_map_snd 0 _).symm]
        exact List.mem_map_of_mem _ hx
      rcases a3 x.2 hx2 with h | h
      · exact absurd h (List.not_mem_nil _)
      · exact h
    obtain ⟨c1, c2, c3⟩ := heapPhaseC_go now (heapPhaseA σ addrs).2
      σ.length ((heapPhaseA σ addrs).2.enum) hcop
      (heapPhaseA σ addrs).1 [] a1
    refine ⟨?_, ?_, ?_⟩
    · intro i hi
      rw [heapPhaseC, c2 i hi]
      exact a2 i hi
    · intro o ho
      rw [heapPhaseC] at ho
      rcases c3 o ho with h | h
      · exact absurd h (List.not_mem_nil o)
      · exact h
    · intro o ho a _ ha
      rw [heapPhaseC] at ho
      rcases c3 o ho with h | h
      · exact absurd h (List.not_mem_nil o)
      · omega

/-- Witness for C10 at a one-object store. -/
theorem claim10_witness :
    ((detectHeap 0 [⟨⟨"x", "x.jpg", 10, 10, 10, 0⟩, none, none, none,
        none, none, none⟩] [0]).1)[0]? =
      some ⟨⟨"x", "x.jpg", 10, 10, 10, 0⟩, none, none, none, none, none,
        none⟩ := by
  have h := (claim10_no_input_mutation 0
    [⟨⟨"x", "x.jpg", 10, 10, 10, 0⟩, none, none, none, none, none, none⟩]
    [0]).1 0 (by decide)
  rw [h]
  rfl


end SwipeClean
